import Mathlib

set_option maxHeartbeats 1000000

/-!
Shallow embedding of the card-inventory application's reconciliation core
(`app/models/inventory.py`, `app/routers/items.py`, `app/routers/pages.py`).
The catalog is modelled as a list of records; each handler becomes a pure
function from the catalog (plus its form/query inputs) to a result and the
new catalog.
-/

namespace Inventory

/-! ### String normalization helpers (Python `str.strip` / `str.lower`) -/

/-- Whitespace characters removed by Python's `str.strip()` (ASCII range,
which covers every string this application compares). -/
def pyIsSpace (c : Char) : Bool :=
  c = ' ' || c = '\t' || c = '\n' || c = '\r' || c = '\x0b' || c = '\x0c'

/-- Remove leading and trailing whitespace from a character list. -/
def stripChars (l : List Char) : List Char :=
  (l.dropWhile pyIsSpace).rdropWhile pyIsSpace

/-- Model of Python `str.strip()`. -/
def pyStrip (s : String) : String := ⟨stripChars s.data⟩

/-- Model of Python `str.lower()` (ASCII case mapping, which covers every
string this application compares). -/
def pyLower (s : String) : String := ⟨s.data.map Char.toLower⟩

/-- Model of items.py `_normalize_str`: strip, and turn a blank result into
`none` (Python returns `s2 if s2 else None`). -/
def normalize_str (s : Option String) : Option String :=
  match s with
  | none => none
  | some s => if pyStrip s = "" then none else some (pyStrip s)

/-- Digit-list value for `pyInt?`; `none` unless the list is nonempty and
all decimal digits. -/
def digitsVal? (l : List Char) : Option Nat :=
  match l with
  | [] => none
  | _ :: _ =>
    if l.all Char.isDigit then some (l.foldl (fun n c => n * 10 + (c.toNat - 48)) 0) else none

/-- Model of Python `int()` applied to the already-stripped cell text: an
optional sign followed by decimal digits (digit-group underscores are not
modelled; no row in scope uses them). -/
def pyInt? (s : String) : Option Int :=
  match s.data with
  | [] => none
  | c :: cs =>
    if c = '-' then (digitsVal? cs).map (fun n => -(n : Int))
    else if c = '+' then (digitsVal? cs).map (fun n => (n : Int))
    else (digitsVal? (c :: cs)).map (fun n => (n : Int))

/-! ### Enumerations (app/models/inventory.py) -/

/-- Enum `Rarity`. -/
inductive Rarity
  | COMMON | UNCOMMON | RARE | ULTRA_RARE | SECRET_RARE | PROMO
deriving DecidableEq

/-- Display value of a `Rarity` (the Python enum member's `.value`). -/
def Rarity.value : Rarity → String
  | .COMMON => "Common"
  | .UNCOMMON => "Uncommon"
  | .RARE => "Rare"
  | .ULTRA_RARE => "Ultra Rare"
  | .SECRET_RARE => "Secret Rare"
  | .PROMO => "Promo"

/-- Symbolic member name of a `Rarity` (used by Python's `Enum[name]`). -/
def Rarity.symName : Rarity → String
  | .COMMON => "COMMON"
  | .UNCOMMON => "UNCOMMON"
  | .RARE => "RARE"
  | .ULTRA_RARE => "ULTRA_RARE"
  | .SECRET_RARE => "SECRET_RARE"
  | .PROMO => "PROMO"

/-- All `Rarity` members in declaration order. -/
def Rarity.all : List Rarity :=
  [.COMMON, .UNCOMMON, .RARE, .ULTRA_RARE, .SECRET_RARE, .PROMO]

/-- Model of items.py `_enum_from_value` at `Rarity`: exact lookup by value
(`enum_cls(value)`), falling back to exact lookup by member name
(`enum_cls[value]`); `none` when both raise. -/
def Rarity.ofString? (s : String) : Option Rarity :=
  match Rarity.all.find? (fun r => r.value == s) with
  | some r => some r
  | none => Rarity.all.find? (fun r => r.symName == s)

/-- Enum `Condition`. -/
inductive Condition
  | MINT | NM | LP | MP | HP | DAMAGED
deriving DecidableEq

/-- Display value of a `Condition`. -/
def Condition.value : Condition → String
  | .MINT => "MINT"
  | .NM => "NM"
  | .LP => "LP"
  | .MP => "MP"
  | .HP => "HP"
  | .DAMAGED => "Damaged"

/-- Symbolic member name of a `Condition`. -/
def Condition.symName : Condition → String
  | .MINT => "MINT"
  | .NM => "NM"
  | .LP => "LP"
  | .MP => "MP"
  | .HP => "HP"
  | .DAMAGED => "DAMAGED"

/-- All `Condition` members in declaration order. -/
def Condition.all : List Condition := [.MINT, .NM, .LP, .MP, .HP, .DAMAGED]

/-- Model of `_enum_from_value` at `Condition`. -/
def Condition.ofString? (s : String) : Option Condition :=
  match Condition.all.find? (fun r => r.value == s) with
  | some r => some r
  | none => Condition.all.find? (fun r => r.symName == s)

/-- Enum `Language` (value and member name coincide). -/
inductive Language
  | ES | EN | JP | PT | FR | DE | IT | CN | KR
deriving DecidableEq

/-- Display value of a `Language`. -/
def Language.value : Language → String
  | .ES => "ES"
  | .EN => "EN"
  | .JP => "JP"
  | .PT => "PT"
  | .FR => "FR"
  | .DE => "DE"
  | .IT => "IT"
  | .CN => "CN"
  | .KR => "KR"

/-- Symbolic member name of a `Language` (same text as the value). -/
def Language.symName : Language → String := Language.value

/-- All `Language` members in declaration order. -/
def Language.all : List Language :=
  [.ES, .EN, .JP, .PT, .FR, .DE, .IT, .CN, .KR]

/-- Model of `_enum_from_value` at `Language`. -/
def Language.ofString? (s : String) : Option Language :=
  match Language.all.find? (fun r => r.value == s) with
  | some r => some r
  | none => Language.all.find? (fun r => r.symName == s)

/-- Enum `ComercialCondition`. -/
inductive ComercialCondition
  | COLLECTION | TRADE | SELL | RESERVED
deriving DecidableEq

/-- Display value of a `ComercialCondition`. -/
def ComercialCondition.value : ComercialCondition → String
  | .COLLECTION => "Collection"
  | .TRADE => "Trade"
  | .SELL => "Sell"
  | .RESERVED => "Reserved"

/-- Symbolic member name of a `ComercialCondition`. -/
def ComercialCondition.symName : ComercialCondition → String
  | .COLLECTION => "COLLECTION"
  | .TRADE => "TRADE"
  | .SELL => "SELL"
  | .RESERVED => "RESERVED"

/-- All `ComercialCondition` members in declaration order. -/
def ComercialCondition.all : List ComercialCondition :=
  [.COLLECTION, .TRADE, .SELL, .RESERVED]

/-- Model of `_enum_from_value` at `ComercialCondition`. -/
def ComercialCondition.ofString? (s : String) : Option ComercialCondition :=
  match ComercialCondition.all.find? (fun r => r.value == s) with
  | some r => some r
  | none => ComercialCondition.all.find? (fun r => r.symName == s)

/-! ### Data model (app/models/inventory.py `InventoryItem`) -/

/-- A stored inventory record.  `id` is the surrogate primary key. -/
structure InventoryItem where
  id : Nat
  name : String
  game : String
  set_name : String
  set_code : Option String
  number_set : Int
  rarity : Rarity
  condition : Condition
  language : Language
  quantity : Int
  location : Option String
  comercial_condition : ComercialCondition
  variant : Option String
  notes : Option String
  image_path : Option String
deriving DecidableEq

/-- The natural-key tuple of the unique index `uq_item_variant_ci`. -/
structure NatKey where
  game : String
  set_code : String
  set_name : String
  number_set : Int
  language : Language
  condition : Condition
  variant : String
deriving DecidableEq

/-- Key the index `uq_item_variant_ci` computes on a stored row:
`lower(game), lower(coalesce(set_code, β)), lower(set_name), number_set,
language, condition, lower(coalesce(variant, β))` where `β` is the empty
string. -/
def itemKey (it : InventoryItem) : NatKey :=
  { game := pyLower it.game
    set_code := pyLower (it.set_code.getD "")
    set_name := pyLower it.set_name
    number_set := it.number_set
    language := it.language
    condition := it.condition
    variant := pyLower (it.variant.getD "") }

/-- Key `_find_duplicate_ci` computes from its arguments:
`(x or "").strip().lower()` on game, set_code, set_name and variant. -/
def queryKey (game : String) (set_code : Option String) (set_name : String)
    (number_set : Int) (language_e : Language) (condition_e : Condition)
    (variant : Option String) : NatKey :=
  { game := pyLower (pyStrip game)
    set_code := pyLower (pyStrip (set_code.getD ""))
    set_name := pyLower (pyStrip set_name)
    number_set := number_set
    language := language_e
    condition := condition_e
    variant := pyLower (pyStrip (variant.getD "")) }

/-- Model of items.py `_find_duplicate_ci`: first stored item whose index
key equals the normalized query key (the SQL `select ... where` plus
`.first()`).  A pure read: the catalog is not part of the result. -/
def find_duplicate_ci (cat : List InventoryItem) (game : String)
    (set_code : Option String) (set_name : String) (number_set : Int)
    (language_e : Language) (condition_e : Condition)
    (variant : Option String) : Option InventoryItem :=
  cat.find? (fun it =>
    itemKey it == queryKey game set_code set_name number_set language_e condition_e variant)

/-! ### Item create / update / quantity handlers (app/routers/items.py) -/

/-- Form fields of `create_item` / `update_item` after FastAPI coercion
(`number_set` and `quantity` arrive as integers). -/
structure ItemForm where
  name : String
  game : String
  set_name : String
  number_set : Int
  rarity : String
  condition : String
  language : String
  quantity : Int
  set_code : Option String
  location : Option String
  comercial_condition : String
  variant : Option String
  notes : Option String
deriving DecidableEq

/-- Validation-error list accumulated by `create_item`, in source order.
The `number_set is None` check can never fire on a coerced integer and is
omitted. -/
def create_errors (f : ItemForm) : List String :=
  (if (normalize_str (some f.name)).isNone then ["The name is Required"] else []) ++
  (if (normalize_str (some f.game)).isNone then ["The game is Required"] else []) ++
  (if (normalize_str (some f.set_name)).isNone then ["The set Required"] else []) ++
  (if f.quantity < 0 then ["The quantity must be a integer ≥ 0."] else []) ++
  (if (Rarity.ofString? f.rarity).isNone then ["Invalid Rarity."] else []) ++
  (if (Condition.ofString? f.condition).isNone then ["Invalid Condition."] else []) ++
  (if (Language.ofString? f.language).isNone then ["Invalid Language."] else []) ++
  (if (ComercialCondition.ofString? f.comercial_condition).isNone
    then ["Invalid Comercial Condition."] else [])

/-- Outcome of `create_item`: the 400 validation response, the 409 conflict
response carrying the colliding record, or the successful insert. -/
inductive CreateResult
  | validationError (errors : List String)
  | conflict (existing : InventoryItem)
  | created (item : InventoryItem)
deriving DecidableEq

/-- Model of `create_item`: normalize, validate, consult the duplicate
resolver, then insert.  Returns the response plus the resulting catalog. -/
def create_item (cat : List InventoryItem) (nid : Nat) (f : ItemForm) :
    CreateResult × List InventoryItem :=
  if create_errors f = [] then
    match Rarity.ofString? f.rarity, Condition.ofString? f.condition,
        Language.ofString? f.language, ComercialCondition.ofString? f.comercial_condition with
    | some re, some ce, some le, some cce =>
      match find_duplicate_ci cat ((normalize_str (some f.game)).getD "")
          (normalize_str f.set_code) ((normalize_str (some f.set_name)).getD "")
          f.number_set le ce (normalize_str f.variant) with
      | some ex => (.conflict ex, cat)
      | none =>
        let item : InventoryItem :=
          { id := nid
            name := (normalize_str (some f.name)).getD ""
            game := (normalize_str (some f.game)).getD ""
            set_name := (normalize_str (some f.set_name)).getD ""
            set_code := normalize_str f.set_code
            number_set := f.number_set
            rarity := re
            condition := ce
            language := le
            quantity := f.quantity
            location := normalize_str f.location
            comercial_condition := cce
            variant := normalize_str f.variant
            notes := normalize_str f.notes
            image_path := none }
        (.created item, cat ++ [item])
    | _, _, _, _ => (.validationError (create_errors f), cat)
  else (.validationError (create_errors f), cat)

/-- Validation-error list accumulated by `update_item` (same checks as
`create_errors`, different message texts). -/
def update_errors (f : ItemForm) : List String :=
  (if (normalize_str (some f.name)).isNone then ["The name is required."] else []) ++
  (if (normalize_str (some f.game)).isNone then ["The game is required."] else []) ++
  (if (normalize_str (some f.set_name)).isNone then ["The set is required."] else []) ++
  (if f.quantity < 0 then ["The quantity must be a integer ≥ 0."] else []) ++
  (if (Rarity.ofString? f.rarity).isNone then ["Invalid rarity."] else []) ++
  (if (Condition.ofString? f.condition).isNone then ["Invalid condition."] else []) ++
  (if (Language.ofString? f.language).isNone then ["Invalid language."] else []) ++
  (if (ComercialCondition.ofString? f.comercial_condition).isNone
    then ["Invalid comercial condition."] else [])

/-- Field assignment performed by `update_item` on success (lines 415-427:
every mutable field except `image_path` is replaced). -/
def apply_form (f : ItemForm) (re : Rarity) (ce : Condition) (le : Language)
    (cce : ComercialCondition) (it : InventoryItem) : InventoryItem :=
  { it with
    name := (normalize_str (some f.name)).getD ""
    game := (normalize_str (some f.game)).getD ""
    set_name := (normalize_str (some f.set_name)).getD ""
    set_code := normalize_str f.set_code
    number_set := f.number_set
    rarity := re
    condition := ce
    language := le
    quantity := f.quantity
    location := normalize_str f.location
    comercial_condition := cce
    variant := normalize_str f.variant
    notes := normalize_str f.notes }

/-- Outcome of `update_item`. -/
inductive UpdateResult
  | notFound
  | validationError (errors : List String)
  | conflict (existing : InventoryItem)
  | updated
deriving DecidableEq

/-- Model of `update_item`: 404 when the id is absent, then validation,
then the duplicate check excluding the item itself, then assignment. -/
def update_item (cat : List InventoryItem) (item_id : Nat) (f : ItemForm) :
    UpdateResult × List InventoryItem :=
  match cat.find? (fun it => it.id == item_id) with
  | none => (.notFound, cat)
  | some _ =>
    if update_errors f = [] then
      match Rarity.ofString? f.rarity, Condition.ofString? f.condition,
          Language.ofString? f.language, ComercialCondition.ofString? f.comercial_condition with
      | some re, some ce, some le, some cce =>
        match find_duplicate_ci cat ((normalize_str (some f.game)).getD "")
            (normalize_str f.set_code) ((normalize_str (some f.set_name)).getD "")
            f.number_set le ce (normalize_str f.variant) with
        | some ex =>
          if ex.id = item_id then
            (.updated, cat.map (fun it => if it.id = item_id then apply_form f re ce le cce it else it))
          else (.conflict ex, cat)
        | none =>
          (.updated, cat.map (fun it => if it.id = item_id then apply_form f re ce le cce it else it))
      | _, _, _, _ => (.validationError (update_errors f), cat)
    else (.validationError (update_errors f), cat)

/-- Model of `merge_item_quantity` (`POST /item/id/merge-add`): a negative
delta is rejected (redirect, no mutation), a missing id is a no-op, and
otherwise the delta is added to the item's quantity. -/
def merge_item_quantity (cat : List InventoryItem) (item_id : Nat) (add_qty : Int) :
    List InventoryItem :=
  if add_qty < 0 then cat
  else
    match cat.find? (fun it => it.id == item_id) with
    | none => cat
    | some _ =>
      cat.map (fun it =>
        if it.id = item_id then { it with quantity := it.quantity + add_qty } else it)

/-- Model of `bulk_adjust_qty` (`POST /items/bulk/adjust-qty`): for each
selected id, add the delta and clamp the result at 0 (`max(0, new_q)`). -/
def bulk_adjust_qty (cat : List InventoryItem) (ids : List Nat) (delta : Int) :
    List InventoryItem :=
  if ids = [] then cat
  else
    cat.map (fun it =>
      if it.id ∈ ids then { it with quantity := max 0 (it.quantity + delta) } else it)

/-! ### CSV import (app/routers/items.py `import_csv` and helpers) -/

/-- The `_FIELD_SYNONYMS` table, verbatim. -/
def FIELD_SYNONYMS (field : String) : List String :=
  if field = "name" then ["name", "card_name", "nombre"]
  else if field = "game" then ["game", "juego"]
  else if field = "set_name" then ["set_name", "set", "collection", "coleccion", "colección"]
  else if field = "set_code" then ["set_code", "code", "setcode", "codigo_set", "código_set"]
  else if field = "number_set" then ["number_set", "set_number", "number", "no", "número"]
  else if field = "rarity" then ["rarity", "rareza"]
  else if field = "condition" then ["condition", "estado"]
  else if field = "language" then ["language", "lang", "idioma"]
  else if field = "quantity" then ["quantity", "qty", "cantidad", "stock"]
  else if field = "location" then ["location", "ubicacion", "ubicación", "where"]
  else if field = "comercial_condition"
    then ["comercial_condition", "status", "estado_comercial", "commercial_status"]
  else if field = "variant" then ["variant", "variante", "finish", "foil"]
  else if field = "notes" then ["notes", "nota", "observaciones", "comments"]
  else if field = "tags" then ["tags", "etiquetas", "labels"]
  else []

/-- Synonym phase of `_index_for`: for each synonym in order, the first
header position whose stripped-lowercased text equals it. -/
def syn_index (syns : List String) (headers : List String) : Option Nat :=
  match syns with
  | [] => none
  | syn :: rest =>
    match headers.findIdx? (fun h => pyLower (pyStrip h) == syn) with
    | some i => some i
    | none => syn_index rest headers

/-- Model of `_index_for`: exact case-insensitive match on the canonical
field name first (blank headers skipped), then the synonym table. -/
def index_for (field : String) (headers : List String) : Option Nat :=
  match headers.findIdx?
      (fun h => pyLower (pyStrip h) != "" && pyLower (pyStrip h) == pyLower field) with
  | some i => some i
  | none => syn_index (FIELD_SYNONYMS field) headers

/-- Raw cell text of one data row after the `get` closure (column resolved
via the header map, missing column or short row gives `none`, the cell is
stripped). -/
structure RowData where
  name : Option String
  game : Option String
  set_name : Option String
  set_code : Option String
  number_set : Option String
  rarity : Option String
  condition : Option String
  language : Option String
  quantity : Option String
  location : Option String
  comercial_condition : Option String
  variant : Option String
  notes : Option String
  tags : Option String
deriving DecidableEq

/-- The row-local `get(field)` closure of `import_csv`. -/
def getField (idx : String → Option Nat) (row : List String) (field : String) :
    Option String :=
  match idx field with
  | none => none
  | some i =>
    match row[i]? with
    | none => none
    | some v => some (pyStrip v)

/-- Extract every canonical field of one CSV data row. -/
def rowDataOf (idx : String → Option Nat) (row : List String) : RowData :=
  { name := getField idx row "name"
    game := getField idx row "game"
    set_name := getField idx row "set_name"
    set_code := getField idx row "set_code"
    number_set := getField idx row "number_set"
    rarity := getField idx row "rarity"
    condition := getField idx row "condition"
    language := getField idx row "language"
    quantity := getField idx row "quantity"
    location := getField idx row "location"
    comercial_condition := getField idx row "comercial_condition"
    variant := getField idx row "variant"
    notes := getField idx row "notes"
    tags := getField idx row "tags" }

/-- Truthiness test of the required-values guard
`not all([name, game, set_name, number_set_str, rarity_s, condition_s,
language_s])` (a `None` or empty string is falsy). -/
def rowRequiredMissing (r : RowData) : Bool :=
  (normalize_str r.name).isNone || (normalize_str r.game).isNone ||
  (normalize_str r.set_name).isNone ||
  r.number_set.isNone || r.number_set == some "" ||
  r.rarity.getD "" == "" || r.condition.getD "" == "" || r.language.getD "" == ""

/-- The commercial-status cell with the Python `or` default
(`get(...) or ComercialCondition.COLLECTION.value`). -/
def rowCC (r : RowData) : String :=
  match r.comercial_condition with
  | none => "Collection"
  | some s => if s = "" then "Collection" else s

/-- Quantity parsing of `import_csv`: absent or blank defaults to 0;
otherwise it must parse as a non-negative integer (`none` marks the
skip-with-message path). -/
def parseQuantity (q : Option String) : Option Int :=
  match q with
  | none => some 0
  | some s =>
    if s = "" then some 0
    else
      match pyInt? s with
      | none => none
      | some n => if n < 0 then none else some n

/-- Fully validated fields of one CSV row. -/
structure ParsedRow where
  name : String
  game : String
  set_name : String
  set_code : Option String
  number_set : Int
  rarity : Rarity
  condition : Condition
  language : Language
  quantity : Int
  location : Option String
  comercial_condition : ComercialCondition
  variant : Option String
  notes : Option String
  tags : Option String
deriving DecidableEq

/-- Outcome of the validation prefix of the row loop, one constructor per
`continue`-with-message path. -/
inductive RowParse
  | missingRequired
  | badNumber
  | badEnum
  | badQuantity
  | ok (p : ParsedRow)
deriving DecidableEq

/-- Validation prefix of the row loop (lines 822-868), in source order:
required values, `int(number_set)`, the four enum resolutions (one shared
`try`), then quantity. -/
def parseRow (r : RowData) : RowParse :=
  if rowRequiredMissing r then .missingRequired
  else
    match pyInt? (r.number_set.getD "") with
    | none => .badNumber
    | some ns =>
      match Rarity.ofString? (r.rarity.getD ""), Condition.ofString? (r.condition.getD ""),
          Language.ofString? (r.language.getD ""), ComercialCondition.ofString? (rowCC r) with
      | some re, some ce, some le, some cce =>
        match parseQuantity r.quantity with
        | none => .badQuantity
        | some q =>
          .ok { name := (normalize_str r.name).getD ""
                game := (normalize_str r.game).getD ""
                set_name := (normalize_str r.set_name).getD ""
                set_code := normalize_str r.set_code
                number_set := ns
                rarity := re
                condition := ce
                language := le
                quantity := q
                location := normalize_str r.location
                comercial_condition := cce
                variant := normalize_str r.variant
                notes := normalize_str r.notes
                tags := r.tags }
      | _, _, _, _ => .badEnum

/-- Aggregate state of one `import_csv` run: the catalog, the next
surrogate id, the three counters and the ordered message list. -/
structure ImportState where
  cat : List InventoryItem
  nextId : Nat
  created : Nat
  updated : Nat
  skipped : Nat
  errors : List String
deriving DecidableEq

/-- Count a row as skipped and record its message. -/
def skipWith (st : ImportState) (msg : String) : ImportState :=
  { st with skipped := st.skipped + 1, errors := st.errors ++ [msg] }

/-- Line-numbered message text (`f-string` prefix in the source). -/
def lineMsg (ln : Nat) (txt : String) : String :=
  "Line " ++ toString ln ++ ": " ++ txt

/-- New record built from a validated row (the `InventoryItem(...)`
constructor call of the no-duplicate branch). -/
def itemOfParsed (id_ : Nat) (p : ParsedRow) : InventoryItem :=
  { id := id_
    name := p.name
    game := p.game
    set_name := p.set_name
    set_code := p.set_code
    number_set := p.number_set
    rarity := p.rarity
    condition := p.condition
    language := p.language
    quantity := p.quantity
    location := p.location
    comercial_condition := p.comercial_condition
    variant := p.variant
    notes := p.notes
    image_path := none }

/-- Field replacement of the overwrite policy branch (lines 892-904): every
mutable field including quantity takes the row's value. -/
def overwriteWith (p : ParsedRow) (it : InventoryItem) : InventoryItem :=
  { it with
    name := p.name
    game := p.game
    set_name := p.set_name
    set_code := p.set_code
    number_set := p.number_set
    rarity := p.rarity
    condition := p.condition
    language := p.language
    quantity := p.quantity
    location := p.location
    comercial_condition := p.comercial_condition
    variant := p.variant
    notes := p.notes }

/-- Natural key of a validated row, as handed to the duplicate resolver. -/
def pKey (p : ParsedRow) : NatKey :=
  queryKey p.game p.set_code p.set_name p.number_set p.language p.condition p.variant

/-- One iteration of the `import_csv` row loop at line number `ln`: parse
failures skip with a message; on a natural-key match the `dup_policy`
decides skip / merge (quantity only) / overwrite (any other string); with
no match a new record is inserted.  Tag-association handling touches only
the tag tables and is outside the item catalog modelled here. -/
def processRow (dup_policy : String) (st : ImportState) (ln : Nat) (r : RowData) :
    ImportState :=
  match parseRow r with
  | .missingRequired => skipWith st (lineMsg ln "missing required values.")
  | .badNumber => skipWith st (lineMsg ln "number_set must be integer.")
  | .badEnum =>
      skipWith st (lineMsg ln "invalid enum in rarity/condition/language/comercial_condition.")
  | .badQuantity => skipWith st (lineMsg ln "quantity must be integer ≥ 0.")
  | .ok p =>
    match find_duplicate_ci st.cat p.game p.set_code p.set_name p.number_set
        p.language p.condition p.variant with
    | some existing =>
      if dup_policy = "skip" then { st with skipped := st.skipped + 1 }
      else if dup_policy = "merge" then
        { st with
          cat := st.cat.map (fun it =>
            if it.id = existing.id then { it with quantity := it.quantity + p.quantity } else it)
          updated := st.updated + 1 }
      else
        { st with
          cat := st.cat.map (fun it =>
            if it.id = existing.id then overwriteWith p it else it)
          updated := st.updated + 1 }
    | none =>
      { st with
        cat := st.cat ++ [itemOfParsed st.nextId p]
        nextId := st.nextId + 1
        created := st.created + 1 }

/-- The row loop: each data row is processed independently at its own line
number (`line_no` starts at 1 and is incremented before each row). -/
def processRows (dup_policy : String) : ImportState → Nat → List RowData → ImportState
  | st, _, [] => st
  | st, ln, r :: rs => processRows dup_policy (processRow dup_policy st ln r) (ln + 1) rs

/-- Run the row loop on already-extracted rows with fresh counters; the
first data row is line 2. -/
def runImport (dup_policy : String) (cat : List InventoryItem) (nid : Nat)
    (rows : List RowData) : ImportState :=
  processRows dup_policy
    { cat := cat, nextId := nid, created := 0, updated := 0, skipped := 0, errors := [] }
    2 rows

/-- The required canonical fields of `import_csv`. -/
def REQUIRED_FIELDS : List String :=
  ["name", "game", "set_name", "number_set", "rarity", "condition", "language"]

/-- Outcome of `import_csv`: either the 400 missing-columns rejection
(issued before any row is read, catalog untouched) or the batch result. -/
inductive ImportOutcome
  | rejected (missing : List String) (cat : List InventoryItem)
  | done (st : ImportState)
deriving DecidableEq

/-- Model of `import_csv` after decoding: strip the header cells, resolve
every canonical field, reject the whole file when a required field has no
column, otherwise run the row loop from line 2. -/
def import_csv (dup_policy : String) (cat : List InventoryItem) (nid : Nat)
    (headers : List String) (rows : List (List String)) : ImportOutcome :=
  let headers_norm := headers.map pyStrip
  let missing := REQUIRED_FIELDS.filter (fun f => (index_for f headers_norm).isNone)
  if missing = [] then
    .done (processRows dup_policy
      { cat := cat, nextId := nid, created := 0, updated := 0, skipped := 0, errors := [] }
      2 (rows.map (rowDataOf (fun f => index_for f headers_norm))))
  else .rejected missing cat

/-! ### Listing page pagination (app/routers/pages.py `items_page`) -/

/-- One rendered listing page. -/
structure PageResult where
  page : Nat
  total_pages : Nat
  items : List InventoryItem
  display_from : Nat
  display_to : Nat
deriving DecidableEq

/-- Pagination arithmetic of `items_page` over the ordered matching rows:
`total_pages = max(1, ceil(total/size))`, a page beyond the last is clamped
to the last, then offset/limit slicing. -/
def items_page_paginate (matching : List InventoryItem) (page size : Nat) : PageResult :=
  let total := matching.length
  let total_pages := max 1 ((total + size - 1) / size)
  let p := if page > total_pages then total_pages else page
  { page := p
    total_pages := total_pages
    items := (matching.drop ((p - 1) * size)).take size
    display_from := if total = 0 then 0 else (p - 1) * size + 1
    display_to := min total (p * size) }

/-! ### Spec-side predicates and sample data -/

/-- Spec-side matching predicate of section 4.1, written from the spec's
words for comparison with `find_duplicate_ci`: trim and lowercase
game/set-name/set-code/variant on both the stored item and the query, a
missing set code or variant counting as the empty string, and compare the
resulting tuples. -/
def specKeyMatch (it : InventoryItem) (game : String) (set_code : Option String)
    (set_name : String) (number_set : Int) (language_e : Language)
    (condition_e : Condition) (variant : Option String) : Prop :=
  queryKey it.game it.set_code it.set_name it.number_set it.language it.condition it.variant =
  queryKey game set_code set_name number_set language_e condition_e variant

/-- A stored record whose key-relevant text fields are already stripped —
every write path of the application stores `_normalize_str` outputs, so
this holds of every record the store can contain. -/
def ItemNormalized (it : InventoryItem) : Prop :=
  pyStrip it.game = it.game ∧ pyStrip it.set_name = it.set_name ∧
  pyStrip (it.set_code.getD "") = it.set_code.getD "" ∧
  pyStrip (it.variant.getD "") = it.variant.getD ""

/-- Natural key that `create_item` hands to the duplicate resolver for a
form, defined when the form's condition and language parse. -/
def create_form_key (f : ItemForm) : Option NatKey :=
  match Condition.ofString? f.condition, Language.ofString? f.language with
  | some ce, some le =>
    some (queryKey ((normalize_str (some f.game)).getD "") (normalize_str f.set_code)
      ((normalize_str (some f.set_name)).getD "") f.number_set le ce (normalize_str f.variant))
  | _, _ => none

/-- The quantity invariant: every stored record has a non-negative
quantity (column declared `ge=0`, default 0). -/
def QtyInv (cat : List InventoryItem) : Prop := ∀ it ∈ cat, 0 ≤ it.quantity

/-- Sample stored record (the spec's Pikachu example). -/
def exItem : InventoryItem :=
  { id := 1, name := "Pikachu", game := "Pokemon", set_name := "Base Set",
    set_code := some "BS", number_set := 25, rarity := .COMMON, condition := .NM,
    language := .EN, quantity := 2, location := none,
    comercial_condition := .COLLECTION, variant := some "Holo", notes := none,
    image_path := none }

/-- Sample create form that collides with `exItem` up to case. -/
def exForm : ItemForm :=
  { name := "Pikachu", game := "pokemon", set_name := "base set", number_set := 25,
    rarity := "Common", condition := "NM", language := "EN", quantity := 1,
    set_code := some "bs", location := none, comercial_condition := "Collection",
    variant := some "holo", notes := none }

/-- Sample form with a negative quantity. -/
def negForm : ItemForm := { exForm with quantity := -1 }

/-- Sample valid CSV row (quantity 2). -/
def exRow : RowData :=
  { name := some "Pika", game := some "Pokemon", set_name := some "Base",
    set_code := none, number_set := some "25", rarity := some "Common",
    condition := some "NM", language := some "EN", quantity := some "2",
    location := none, comercial_condition := none, variant := none,
    notes := none, tags := none }

/-- The parse of `exRow`. -/
def exParsed : ParsedRow :=
  { name := "Pika", game := "Pokemon", set_name := "Base", set_code := none,
    number_set := 25, rarity := .COMMON, condition := .NM, language := .EN,
    quantity := 2, location := none, comercial_condition := .COLLECTION,
    variant := none, notes := none, tags := none }

/-- `exRow` with a non-numeric number-within-set. -/
def exRowBadNum : RowData := { exRow with number_set := some "abc" }

/-- `exRow` with a lowercase rarity cell. -/
def exRowLowerRarity : RowData := { exRow with rarity := some "common" }

/-- Fresh import state over an empty catalog. -/
def st0 : ImportState :=
  { cat := [], nextId := 1, created := 0, updated := 0, skipped := 0, errors := [] }

/-- Import state holding exactly the record of `exRow`. -/
def stC3 : ImportState :=
  { cat := [itemOfParsed 1 exParsed], nextId := 2, created := 0, updated := 0,
    skipped := 0, errors := [] }

/-- Canonical CSV header. -/
def hdrC6 : List String :=
  ["name", "game", "set_name", "number_set", "rarity", "condition", "language"]

/-- Ten data rows, nine valid and one (the fifth, file line 6) with a
non-numeric number-within-set. -/
def rowsC6 : List (List String) :=
  [["A", "Pokemon", "Base", "1", "Common", "NM", "EN"],
   ["B", "Pokemon", "Base", "2", "Common", "NM", "EN"],
   ["C", "Pokemon", "Base", "3", "Common", "NM", "EN"],
   ["D", "Pokemon", "Base", "4", "Common", "NM", "EN"],
   ["E", "Pokemon", "Base", "abc", "Common", "NM", "EN"],
   ["F", "Pokemon", "Base", "5", "Common", "NM", "EN"],
   ["G", "Pokemon", "Base", "6", "Common", "NM", "EN"],
   ["H", "Pokemon", "Base", "7", "Common", "NM", "EN"],
   ["I", "Pokemon", "Base", "8", "Common", "NM", "EN"],
   ["J", "Pokemon", "Base", "9", "Common", "NM", "EN"]]

/-- Header using the Spanish synonym "Cantidad" for the quantity column. -/
def hdrCant : List String :=
  ["name", "game", "set_name", "number_set", "rarity", "condition", "language", "Cantidad"]

/-- Data row for `hdrCant` with quantity cell "3". -/
def rowCant : List String :=
  ["Pika", "Pokemon", "Base", "25", "Common", "NM", "EN", "3"]

/-- Three stored records for the pagination example. -/
def ex3Cat : List InventoryItem :=
  [exItem, { exItem with id := 2, number_set := 26 }, { exItem with id := 3, number_set := 27 }]

/-! ### Helper lemmas -/

/-- Stripping is idempotent on character lists. -/
theorem stripChars_idem (l : List Char) : stripChars (stripChars l) = stripChars l := by
  unfold stripChars
  have h1 : ((l.dropWhile pyIsSpace).rdropWhile pyIsSpace).dropWhile pyIsSpace =
      (l.dropWhile pyIsSpace).rdropWhile pyIsSpace := by
    rw [List.dropWhile_eq_self_iff]
    obtain ⟨t, ht⟩ := List.rdropWhile_prefix pyIsSpace (l.dropWhile pyIsSpace)
    rcases hs : (l.dropWhile pyIsSpace).rdropWhile pyIsSpace with _ | ⟨a, w⟩
    · intro hl; simp at hl
    · intro hl
      rw [hs] at ht
      have hhead := List.head?_dropWhile_not pyIsSpace l
      rw [← ht] at hhead
      simp only [List.cons_append, List.head?_cons] at hhead
      simpa using hhead
  rw [h1, List.rdropWhile_idempotent]

/-- Python strip is idempotent. -/
theorem pyStrip_idem (s : String) : pyStrip (pyStrip s) = pyStrip s :=
  congrArg String.mk (stripChars_idem s.data)

/-- A string produced by `_normalize_str` is already stripped. -/
theorem normalize_stripFixed (o : Option String) (s : String)
    (h : normalize_str o = some s) : pyStrip s = s := by
  cases o with
  | none => simp [normalize_str] at h
  | some t =>
    unfold normalize_str at h
    by_cases ht : pyStrip t = ""
    · simp [ht] at h
    · simp only [ht, if_false, Option.some.injEq] at h
      rw [← h, pyStrip_idem]

/-- The `(x or "")` view of a `_normalize_str` result is already stripped. -/
theorem normalize_getD_stripFixed (o : Option String) :
    pyStrip ((normalize_str o).getD "") = (normalize_str o).getD "" := by
  cases hn : normalize_str o with
  | none => rfl
  | some s => simpa using normalize_stripFixed o s hn

/-- Quantity parsing only succeeds with a non-negative value. -/
theorem parseQuantity_nonneg (q : Option String) (n : Int)
    (h : parseQuantity q = some n) : 0 ≤ n := by
  unfold parseQuantity at h
  rcases q with _ | s
  · simp only [Option.some.injEq] at h; omega
  · by_cases hs : s = ""
    · simp only [hs, if_true, Option.some.injEq] at h; omega
    · simp only [hs, if_false] at h
      rcases hi : pyInt? s with _ | m
      · rw [hi] at h; simp at h
      · rw [hi] at h
        by_cases hm : m < 0
        · simp [hm] at h
        · simp only [hm, if_false, Option.some.injEq] at h; omega

/-- A negative parsed quantity makes `parseQuantity` fail (the row is
skipped, never stored). -/
theorem parseQuantity_neg_none (s : String) (n : Int)
    (hi : pyInt? s = some n) (hn : n < 0) : parseQuantity (some s) = none := by
  unfold parseQuantity
  have hs : s ≠ "" := by
    intro h
    rw [h] at hi
    simp [pyInt?] at hi
  simp [hs, hi, hn]

/-- Inversion of a successful row parse: how each stored field of the
`ParsedRow` was produced, plus non-negativity of the quantity. -/
theorem parseRow_ok_fields (r : RowData) (p : ParsedRow) (h : parseRow r = .ok p) :
    p.name = (normalize_str r.name).getD "" ∧
    p.game = (normalize_str r.game).getD "" ∧
    p.set_name = (normalize_str r.set_name).getD "" ∧
    p.set_code = normalize_str r.set_code ∧
    p.variant = normalize_str r.variant ∧
    0 ≤ p.quantity := by
  unfold parseRow at h
  split at h
  · simp at h
  · split at h
    · simp at h
    · split at h
      · rename_i q hq
        split at h
        · simp at h
        · rename_i n hn
          cases h
          exact ⟨rfl, rfl, rfl, rfl, rfl, parseQuantity_nonneg _ _ hn⟩
      · simp at h

/-- The fields of a row-built record that feed the natural key are
stripped, so the stored index key coincides with the resolver's query key
for the same row. -/
theorem itemKey_itemOfParsed (r : RowData) (p : ParsedRow) (id_ : Nat)
    (h : parseRow r = .ok p) : itemKey (itemOfParsed id_ p) = pKey p := by
  obtain ⟨-, hg, hsn, hsc, hv, -⟩ := parseRow_ok_fields r p h
  unfold itemKey itemOfParsed pKey queryKey
  have h1 : pyStrip p.game = p.game := by rw [hg]; exact normalize_getD_stripFixed _
  have h2 : pyStrip p.set_name = p.set_name := by rw [hsn]; exact normalize_getD_stripFixed _
  have h3 : pyStrip (p.set_code.getD "") = p.set_code.getD "" := by
    rw [hsc]; exact normalize_getD_stripFixed _
  have h4 : pyStrip (p.variant.getD "") = p.variant.getD "" := by
    rw [hv]; exact normalize_getD_stripFixed _
  simp [h1, h2, h3, h4]

/-- Mapping a function that fixes every member of a list is the identity. -/
theorem map_fix_eq_self {α : Type} (l : List α) (f : α → α)
    (h : ∀ a ∈ l, f a = a) : l.map f = l := by
  induction l with
  | nil => rfl
  | cons a t ih =>
    rw [List.map_cons, h a (List.mem_cons_self a t),
      ih (fun b hb => h b (List.mem_cons_of_mem a hb))]

/-- A conditional singleton list that is empty has a false condition. -/
theorem ite_singleton_nil {c : Prop} [Decidable c] {s : String}
    (h : (if c then [s] else []) = []) : ¬c := by
  intro hc
  rw [if_pos hc] at h
  exact absurd h (by simp)

/-- When `create_item` collects no validation error, every parse behind the
checks succeeded and the quantity is non-negative. -/
theorem create_errors_nil_parses (f : ItemForm) (h : create_errors f = []) :
    (Rarity.ofString? f.rarity).isSome ∧ (Condition.ofString? f.condition).isSome ∧
    (Language.ofString? f.language).isSome ∧
    (ComercialCondition.ofString? f.comercial_condition).isSome ∧ 0 ≤ f.quantity := by
  have key : ∀ s : String, s ∉ create_errors f := by
    intro s hs
    rw [h] at hs
    simp at hs
  refine ⟨?_, ?_, ?_, ?_, ?_⟩
  · by_contra hc
    have hc' : (Rarity.ofString? f.rarity).isNone = true := by
      simp [Option.isNone_iff_eq_none, ← Option.not_isSome_iff_eq_none, hc]
    exact key "Invalid Rarity." (by simp [create_errors, hc'])
  · by_contra hc
    have hc' : (Condition.ofString? f.condition).isNone = true := by
      simp [Option.isNone_iff_eq_none, ← Option.not_isSome_iff_eq_none, hc]
    exact key "Invalid Condition." (by simp [create_errors, hc'])
  · by_contra hc
    have hc' : (Language.ofString? f.language).isNone = true := by
      simp [Option.isNone_iff_eq_none, ← Option.not_isSome_iff_eq_none, hc]
    exact key "Invalid Language." (by simp [create_errors, hc'])
  · by_contra hc
    have hc' : (ComercialCondition.ofString? f.comercial_condition).isNone = true := by
      simp [Option.isNone_iff_eq_none, ← Option.not_isSome_iff_eq_none, hc]
    exact key "Invalid Comercial Condition." (by simp [create_errors, hc'])
  · by_contra hq
    have hq' : f.quantity < 0 := by omega
    exact key "The quantity must be a integer ≥ 0." (by simp [create_errors, hq'])

/-- Same analysis for `update_item`'s error list. -/
theorem update_errors_nil_parses (f : ItemForm) (h : update_errors f = []) :
    (Rarity.ofString? f.rarity).isSome ∧ (Condition.ofString? f.condition).isSome ∧
    (Language.ofString? f.language).isSome ∧
    (ComercialCondition.ofString? f.comercial_condition).isSome ∧ 0 ≤ f.quantity := by
  have key : ∀ s : String, s ∉ update_errors f := by
    intro s hs
    rw [h] at hs
    simp at hs
  refine ⟨?_, ?_, ?_, ?_, ?_⟩
  · by_contra hc
    have hc' : (Rarity.ofString? f.rarity).isNone = true := by
      simp [Option.isNone_iff_eq_none, ← Option.not_isSome_iff_eq_none, hc]
    exact key "Invalid rarity." (by simp [update_errors, hc'])
  · by_contra hc
    have hc' : (Condition.ofString? f.condition).isNone = true := by
      simp [Option.isNone_iff_eq_none, ← Option.not_isSome_iff_eq_none, hc]
    exact key "Invalid condition." (by simp [update_errors, hc'])
  · by_contra hc
    have hc' : (Language.ofString? f.language).isNone = true := by
      simp [Option.isNone_iff_eq_none, ← Option.not_isSome_iff_eq_none, hc]
    exact key "Invalid language." (by simp [update_errors, hc'])
  · by_contra hc
    have hc' : (ComercialCondition.ofString? f.comercial_condition).isNone = true := by
      simp [Option.isNone_iff_eq_none, ← Option.not_isSome_iff_eq_none, hc]
    exact key "Invalid comercial condition." (by simp [update_errors, hc'])
  · by_contra hq
    have hq' : f.quantity < 0 := by omega
    exact key "The quantity must be a integer ≥ 0." (by simp [update_errors, hq'])

/-- A negative form quantity forces a non-empty `create_item` error list. -/
theorem create_errors_ne_nil_of_neg (f : ItemForm) (h : f.quantity < 0) :
    create_errors f ≠ [] := by
  intro h0
  have := (create_errors_nil_parses f h0).2.2.2.2
  omega

/-- A negative form quantity forces a non-empty `update_item` error list. -/
theorem update_errors_ne_nil_of_neg (f : ItemForm) (h : f.quantity < 0) :
    update_errors f ≠ [] := by
  intro h0
  have := (update_errors_nil_parses f h0).2.2.2.2
  omega

/-- On a stripped record the stored index key and the resolver's query key
built from the record's own fields coincide. -/
theorem itemKey_eq_query_self (it : InventoryItem) (h : ItemNormalized it) :
    itemKey it = queryKey it.game it.set_code it.set_name it.number_set
      it.language it.condition it.variant := by
  obtain ⟨h1, h2, h3, h4⟩ := h
  unfold itemKey queryKey
  rw [h1, h2, h3, h4]

/-! ### Claim theorems -/

/-- C7 (counterexample): with zero matching items, requesting page 99 at
size 20 exceeds the computed last page, and the page returned after
clamping is empty — refuting "never an empty page" as quantified over
every total match count. -/
theorem C7_empty_result_gives_empty_page :
    99 > (items_page_paginate ([] : List InventoryItem) 99 20).total_pages ∧
    (items_page_paginate ([] : List InventoryItem) 99 20).page = 1 ∧
    (items_page_paginate ([] : List InventoryItem) 99 20).items = [] := by
  refine ⟨by decide, rfl, rfl⟩

/-- C7 (amended): for any in-range page and size request, the computed
last page is `max 1 (ceil(total/size))`, a requested page beyond it is
clamped to it (the returned page is `min page total_pages`), and whenever
at least one item matches the returned page is nonempty. -/
theorem C7_pagination_clamp (matching : List InventoryItem) (page size : Nat)
    (hp : 1 ≤ page) (hs : 5 ≤ size) :
    (items_page_paginate matching page size).total_pages =
      max 1 ((matching.length + size - 1) / size) ∧
    (items_page_paginate matching page size).page =
      min page (items_page_paginate matching page size).total_pages ∧
    (matching ≠ [] → (items_page_paginate matching page size).items ≠ []) := by
  unfold items_page_paginate
  dsimp only
  refine ⟨rfl, ?_, ?_⟩
  · split <;> omega
  · intro hne
    have hlen : 0 < matching.length := List.length_pos.mpr hne
    have hsz : 0 < size := by omega
    set total := matching.length with htot
    set tp := max 1 ((total + size - 1) / size) with htp
    set p := if page > tp then tp else page with hpdef
    have hple : p ≤ tp := by rw [hpdef]; split <;> omega
    have hp1 : 1 ≤ p := by rw [hpdef]; split <;> omega
    have hdiv : tp * size ≤ total + size - 1 := by
      have h1 : ((total + size - 1) / size) * size ≤ total + size - 1 :=
        Nat.div_mul_le_self _ _
      rcases max_cases 1 ((total + size - 1) / size) with ⟨hm, -⟩ | ⟨hm, -⟩ <;>
        rw [htp, hm] <;> omega
    have hoff : (p - 1) * size < total := by
      have h3 : (p - 1) * size ≤ (tp - 1) * size := Nat.mul_le_mul_right _ (by omega)
      have h4 : (tp - 1) * size = tp * size - size := Nat.sub_one_mul _ _
      omega
    intro hcontra
    have hlc := congrArg List.length hcontra
    simp only [List.length_take, List.length_drop, List.length_nil] at hlc
    omega

/-- C7 witness: the 3-item, size-20 example at page 99. -/
theorem C7_pagination_clamp_witness :
    ((items_page_paginate ex3Cat 99 20).total_pages =
      max 1 ((ex3Cat.length + 20 - 1) / 20) ∧
    (items_page_paginate ex3Cat 99 20).page =
      min 99 (items_page_paginate ex3Cat 99 20).total_pages ∧
    (ex3Cat ≠ [] → (items_page_paginate ex3Cat 99 20).items ≠ [])) ∧
    (items_page_paginate ex3Cat 99 20).page = 1 ∧
    (items_page_paginate ex3Cat 99 20).items = ex3Cat := by
  refine ⟨C7_pagination_clamp ex3Cat 99 20 (by decide) (by decide), rfl, rfl⟩

/-- C8 (counterexample): enum resolution is not case-tolerant — the exact
display value "Common" and the exact member name "COMMON" resolve, but the
lowercase "common" resolves to nothing and the row carrying it is skipped
with a line-numbered message. -/
theorem C8_lowercase_enum_rejected :
    Rarity.ofString? "Common" = some Rarity.COMMON ∧
    Rarity.ofString? "COMMON" = some Rarity.COMMON ∧
    Rarity.ofString? "common" = none ∧
    parseRow exRowLowerRarity = .badEnum ∧
    processRow "merge" st0 2 exRowLowerRarity =
      { st0 with skipped := 1,
                 errors := ["Line 2: invalid enum in rarity/condition/language/comercial_condition."] } := by
  refine ⟨rfl, rfl, rfl, by decide, by decide⟩

/-- C8 (amended): each of the four categorical fields is resolved by its
exact display value or, failing that, by its exact symbolic member name
(both lookups case-sensitive), and a cell that resolves to neither makes
the row skipped with a line-numbered message. -/
theorem C8_enum_resolution (dup_policy : String) (st : ImportState) (ln : Nat)
    (r : RowData) (h : parseRow r = .badEnum) :
    (∀ x : Rarity, Rarity.ofString? x.value = some x ∧ Rarity.ofString? x.symName = some x) ∧
    (∀ x : Condition, Condition.ofString? x.value = some x ∧ Condition.ofString? x.symName = some x) ∧
    (∀ x : Language, Language.ofString? x.value = some x ∧ Language.ofString? x.symName = some x) ∧
    (∀ x : ComercialCondition,
      ComercialCondition.ofString? x.value = some x ∧ ComercialCondition.ofString? x.symName = some x) ∧
    processRow dup_policy st ln r =
      { st with skipped := st.skipped + 1,
                errors := st.errors ++
                  [lineMsg ln "invalid enum in rarity/condition/language/comercial_condition."] } := by
  refine ⟨fun x => by cases x <;> exact ⟨rfl, rfl⟩, fun x => by cases x <;> exact ⟨rfl, rfl⟩,
    fun x => by cases x <;> exact ⟨rfl, rfl⟩, fun x => by cases x <;> exact ⟨rfl, rfl⟩, ?_⟩
  unfold processRow
  rw [h]
  rfl

/-- C8 witness: the amended statement at the concrete lowercase-rarity row. -/
theorem C8_enum_resolution_witness :
    (∀ x : Rarity, Rarity.ofString? x.value = some x ∧ Rarity.ofString? x.symName = some x) ∧
    (∀ x : Condition, Condition.ofString? x.value = some x ∧ Condition.ofString? x.symName = some x) ∧
    (∀ x : Language, Language.ofString? x.value = some x ∧ Language.ofString? x.symName = some x) ∧
    (∀ x : ComercialCondition,
      ComercialCondition.ofString? x.value = some x ∧ ComercialCondition.ofString? x.symName = some x) ∧
    processRow "merge" st0 2 exRowLowerRarity =
      { st0 with skipped := 1,
                 errors := ["Line 2: invalid enum in rarity/condition/language/comercial_condition."] } := by
  have h := C8_enum_resolution "merge" st0 2 exRowLowerRarity (by decide)
  exact ⟨h.1, h.2.1, h.2.2.1, h.2.2.2.1, by rw [h.2.2.2.2]; rfl⟩

/-- C5: header resolution tries the exact case-insensitive match first and
the synonym table second; when any required field resolves to no column the
whole import is rejected before any row is processed, reporting exactly the
unresolved required fields, with the catalog unchanged; and the Spanish
synonym header "Cantidad" resolves to the quantity field, so a file using
it imports with the quantity cell applied. -/
theorem C5_header_resolution (dup_policy : String) (cat : List InventoryItem)
    (nid : Nat) (headers : List String) (rows : List (List String)) :
    (REQUIRED_FIELDS.filter (fun g => (index_for g (headers.map pyStrip)).isNone) ≠ [] →
      import_csv dup_policy cat nid headers rows =
        .rejected (REQUIRED_FIELDS.filter (fun g => (index_for g (headers.map pyStrip)).isNone)) cat) ∧
    (∀ (f : String) (hs : List String) (i : Nat),
      hs.findIdx? (fun h => pyLower (pyStrip h) != "" && pyLower (pyStrip h) == pyLower f) = some i →
      index_for f hs = some i) ∧
    index_for "quantity" (hdrCant.map pyStrip) = some 7 ∧
    (∃ st, import_csv "merge" [] 1 hdrCant [rowCant] = .done st ∧
      st.created = 1 ∧ st.skipped = 0 ∧ st.cat.map (fun it => it.quantity) = [3]) := by
  refine ⟨?_, ?_, by decide, ?_⟩
  · intro hmiss
    unfold import_csv
    rw [if_neg hmiss]
  · intro f hs i h
    unfold index_for
    rw [h]
  · exact ⟨_, rfl, by decide, by decide, by decide⟩

/-- C5 witness: a header missing four required columns is rejected with
exactly those fields reported and the catalog intact. -/
theorem C5_header_resolution_witness :
    import_csv "merge" [exItem] 5 ["name", "game", "language"] [rowCant] =
      .rejected ["set_name", "number_set", "rarity", "condition"] [exItem] := by
  have h := (C5_header_resolution "merge" [exItem] 5 ["name", "game", "language"] [rowCant]).1
    (by decide)
  rw [h]
  rfl

/-- C6: rows are processed independently — the loop always continues with
the remaining rows at the next line number whatever one row produced; each
of the four validation failures counts the row as skipped and records a
message carrying the row's own line number; the first data row carries
line number 2; and the concrete ten-row file whose fifth data row has a
non-numeric number-within-set yields 9 created, 1 skipped, with the
message naming file line 6. -/
theorem C6_row_isolation :
    (∀ (dup_policy : String) (st : ImportState) (ln : Nat) (r : RowData) (rs : List RowData),
      processRows dup_policy st ln (r :: rs) =
        processRows dup_policy (processRow dup_policy st ln r) (ln + 1) rs) ∧
    (∀ (dup_policy : String) (cat : List InventoryItem) (nid : Nat) (rows : List RowData),
      runImport dup_policy cat nid rows =
        processRows dup_policy
          { cat := cat, nextId := nid, created := 0, updated := 0, skipped := 0, errors := [] }
          2 rows) ∧
    (∀ (dup_policy : String) (st : ImportState) (ln : Nat) (r : RowData),
      parseRow r = .missingRequired →
      processRow dup_policy st ln r =
        { st with skipped := st.skipped + 1,
                  errors := st.errors ++ [lineMsg ln "missing required values."] }) ∧
    (∀ (dup_policy : String) (st : ImportState) (ln : Nat) (r : RowData),
      parseRow r = .badNumber →
      processRow dup_policy st ln r =
        { st with skipped := st.skipped + 1,
                  errors := st.errors ++ [lineMsg ln "number_set must be integer."] }) ∧
    (∀ (dup_policy : String) (st : ImportState) (ln : Nat) (r : RowData),
      parseRow r = .badQuantity →
      processRow dup_policy st ln r =
        { st with skipped := st.skipped + 1,
                  errors := st.errors ++ [lineMsg ln "quantity must be integer ≥ 0."] }) ∧
    (∃ st, import_csv "merge" [] 1 hdrC6 rowsC6 = .done st ∧
      st.created = 9 ∧ st.skipped = 1 ∧ st.updated = 0 ∧
      st.errors = ["Line 6: number_set must be integer."]) := by
  refine ⟨fun _ _ _ _ _ => rfl, fun _ _ _ _ => rfl, ?_, ?_, ?_, ?_⟩
  · intro dp st ln r h
    unfold processRow
    rw [h]
    rfl
  · intro dp st ln r h
    unfold processRow
    rw [h]
    rfl
  · intro dp st ln r h
    unfold processRow
    rw [h]
    rfl
  · exact ⟨_, rfl, by decide, by decide, by decide, by decide⟩

/-- C6 witness: the malformed-number row at line 2 over a fresh state. -/
theorem C6_row_isolation_witness :
    processRow "merge" st0 2 exRowBadNum =
      { st0 with skipped := 1, errors := ["Line 2: number_set must be integer."] } := by
  have h := C6_row_isolation.2.2.2.1 "merge" st0 2 exRowBadNum (by decide)
  rw [h]
  rfl

/-- C3: when a row's natural key matches an existing record, policy "skip"
changes nothing but the skipped counter (no catalog mutation, no message),
and policy "merge" increments the updated counter and rewrites the catalog
by adding the row's quantity to the matched record's quantity while every
other field — and every other record — is carried over unchanged. -/
theorem C3_skip_merge_frame (st : ImportState) (ln : Nat) (r : RowData)
    (p : ParsedRow) (ex : InventoryItem)
    (hp : parseRow r = .ok p)
    (hfind : find_duplicate_ci st.cat p.game p.set_code p.set_name p.number_set
      p.language p.condition p.variant = some ex) :
    processRow "skip" st ln r = { st with skipped := st.skipped + 1 } ∧
    processRow "merge" st ln r =
      { st with
        cat := st.cat.map (fun it =>
          if it.id = ex.id then { it with quantity := it.quantity + p.quantity } else it)
        updated := st.updated + 1 } := by
  constructor
  · unfold processRow
    rw [hp]
    dsimp only
    rw [hfind]
    rfl
  · unfold processRow
    rw [hp]
    dsimp only
    rw [hfind]
    rfl

/-- C3 witness: a duplicate of the sample row under both policies. -/
theorem C3_skip_merge_frame_witness :
    processRow "skip" stC3 2 exRow = { stC3 with skipped := 1 } ∧
    processRow "merge" stC3 2 exRow =
      { stC3 with
        cat := stC3.cat.map (fun it =>
          if it.id = (itemOfParsed 1 exParsed).id then { it with quantity := it.quantity + exParsed.quantity } else it)
        updated := 1 } := by
  have h := C3_skip_merge_frame stC3 2 exRow exParsed (itemOfParsed 1 exParsed)
    (by decide) (by decide)
  exact ⟨by rw [h.1]; rfl, by rw [h.2]; rfl⟩

/-- C10: any `dup_policy` other than exactly "skip" and exactly "merge"
takes the overwrite branch on a natural-key match: every mutable field of
the existing record, quantity included, is replaced with the row's values
and the updated counter is incremented. -/
theorem C10_other_policy_overwrites (dup_policy : String) (st : ImportState)
    (ln : Nat) (r : RowData) (p : ParsedRow) (ex : InventoryItem)
    (hs : dup_policy ≠ "skip") (hm : dup_policy ≠ "merge")
    (hp : parseRow r = .ok p)
    (hfind : find_duplicate_ci st.cat p.game p.set_code p.set_name p.number_set
      p.language p.condition p.variant = some ex) :
    processRow dup_policy st ln r =
      { st with
        cat := st.cat.map (fun it => if it.id = ex.id then overwriteWith p it else it)
        updated := st.updated + 1 } := by
  unfold processRow
  rw [hp]
  dsimp only
  rw [hfind]
  dsimp only
  rw [if_neg hs, if_neg hm]

/-- C10 witness: the misspelled policy "OVERWRITE" overwrites. -/
theorem C10_other_policy_overwrites_witness :
    processRow "OVERWRITE" stC3 2 exRow =
      { stC3 with
        cat := stC3.cat.map (fun it =>
          if it.id = (itemOfParsed 1 exParsed).id then overwriteWith exParsed it else it)
        updated := 1 } := by
  have h := C10_other_policy_overwrites "OVERWRITE" stC3 2 exRow exParsed
    (itemOfParsed 1 exParsed) (by decide) (by decide) (by decide) (by decide)
  rw [h]
  rfl

/-- C4: over a catalog of stripped records (which is every catalog the
application's write paths can build), the Duplicate Resolver returns some
record exactly when a stored record's natural key matches the query under
the spec's trim-and-lowercase normalization; any record it returns is a
stored record whose key matches; and a missing set code or variant behaves
exactly like an explicit empty string.  The resolver itself is a pure
read: its result carries no catalog. -/
theorem C4_duplicate_resolver_contract (cat : List InventoryItem) (game : String)
    (set_code : Option String) (set_name : String) (number_set : Int)
    (language_e : Language) (condition_e : Condition) (variant : Option String)
    (hnorm : ∀ it ∈ cat, ItemNormalized it) :
    ((find_duplicate_ci cat game set_code set_name number_set language_e condition_e variant).isSome
      ↔ ∃ it ∈ cat, specKeyMatch it game set_code set_name number_set language_e condition_e variant) ∧
    (∀ r, find_duplicate_ci cat game set_code set_name number_set language_e condition_e variant = some r →
      r ∈ cat ∧ specKeyMatch r game set_code set_name number_set language_e condition_e variant) ∧
    (find_duplicate_ci cat game none set_name number_set language_e condition_e none =
      find_duplicate_ci cat game (some "") set_name number_set language_e condition_e (some "")) := by
  refine ⟨?_, ?_, rfl⟩
  · unfold find_duplicate_ci
    rw [List.find?_isSome]
    constructor
    · rintro ⟨it, hmem, hpred⟩
      refine ⟨it, hmem, ?_⟩
      rw [beq_iff_eq] at hpred
      unfold specKeyMatch
      rw [← itemKey_eq_query_self it (hnorm it hmem), hpred]
    · rintro ⟨it, hmem, hmatch⟩
      refine ⟨it, hmem, ?_⟩
      rw [beq_iff_eq, itemKey_eq_query_self it (hnorm it hmem)]
      exact hmatch
  · intro r hr
    unfold find_duplicate_ci at hr
    have hmem := List.mem_of_find?_eq_some hr
    have hpred := List.find?_some hr
    rw [beq_iff_eq] at hpred
    refine ⟨hmem, ?_⟩
    unfold specKeyMatch
    rw [← itemKey_eq_query_self r (hnorm r hmem), hpred]

/-- C4 witness: the case-variant query against the sample record. -/
theorem C4_duplicate_resolver_contract_witness :
    (((find_duplicate_ci [exItem] "pokemon" (some "bs") "base set" 25 Language.EN Condition.NM (some "holo")).isSome
      ↔ ∃ it ∈ [exItem], specKeyMatch it "pokemon" (some "bs") "base set" 25 Language.EN Condition.NM (some "holo")) ∧
    (∀ r, find_duplicate_ci [exItem] "pokemon" (some "bs") "base set" 25 Language.EN Condition.NM (some "holo") = some r →
      r ∈ [exItem] ∧ specKeyMatch r "pokemon" (some "bs") "base set" 25 Language.EN Condition.NM (some "holo")) ∧
    (find_duplicate_ci [exItem] "pokemon" none "base set" 25 Language.EN Condition.NM none =
      find_duplicate_ci [exItem] "pokemon" (some "") "base set" 25 Language.EN Condition.NM (some ""))) ∧
    find_duplicate_ci [exItem] "pokemon" (some "bs") "base set" 25 Language.EN Condition.NM (some "holo") =
      some exItem := by
  refine ⟨C4_duplicate_resolver_contract [exItem] "pokemon" (some "bs") "base set" 25
    Language.EN Condition.NM (some "holo") ?_, by decide⟩
  intro it hit
  rw [List.mem_singleton] at hit
  subst hit
  refine ⟨by decide, by decide, by decide, by decide⟩

/-- C1: creating an item whose natural key case-insensitively matches a
stored record is rejected with a conflict response that carries a stored
colliding record with that same key, and the catalog is returned
unchanged — the store never receives a second record for the key. -/
theorem C1_create_rejects_duplicate_key (cat : List InventoryItem) (nid : Nat)
    (f : ItemForm) (k : NatKey) (it : InventoryItem)
    (herr : create_errors f = []) (hk : create_form_key f = some k)
    (hit : it ∈ cat) (hkey : itemKey it = k) :
    ∃ r, create_item cat nid f = (.conflict r, cat) ∧ r ∈ cat ∧ itemKey r = k := by
  obtain ⟨hre, hce, hle, hcce, -⟩ := create_errors_nil_parses f herr
  rw [Option.isSome_iff_exists] at hre hce hle hcce
  obtain ⟨re, hre⟩ := hre
  obtain ⟨ce, hce⟩ := hce
  obtain ⟨le, hle⟩ := hle
  obtain ⟨cce, hcce⟩ := hcce
  unfold create_form_key at hk
  rw [hce, hle] at hk
  dsimp only at hk
  have hkq := Option.some.inj hk
  unfold create_item
  rw [if_pos herr, hre, hce, hle, hcce]
  dsimp only
  unfold find_duplicate_ci
  have hsome : (cat.find? (fun x =>
      itemKey x == queryKey ((normalize_str (some f.game)).getD "") (normalize_str f.set_code)
        ((normalize_str (some f.set_name)).getD "") f.number_set le ce
        (normalize_str f.variant))).isSome := by
    rw [List.find?_isSome]
    refine ⟨it, hit, ?_⟩
    rw [beq_iff_eq, hkey, ← hkq]
  obtain ⟨r, hr⟩ := Option.isSome_iff_exists.mp hsome
  rw [hr]
  refine ⟨r, rfl, List.mem_of_find?_eq_some hr, ?_⟩
  have hp := List.find?_some hr
  rw [beq_iff_eq] at hp
  rw [hp, hkq]

/-- C1 witness: the case-variant form against the sample record. -/
theorem C1_create_rejects_duplicate_key_witness :
    ∃ r, create_item [exItem] 2 exForm = (.conflict r, [exItem]) ∧
      r ∈ [exItem] ∧ itemKey r = itemKey exItem :=
  C1_create_rejects_duplicate_key [exItem] 2 exForm (itemKey exItem) exItem
    (by decide) (by decide) (by decide) rfl

/-- C2: starting from a catalog with no record matching a valid row's
natural key, importing that row with policy "merge" and quantity 2 creates
one record, and importing it again finds that record through the Duplicate
Resolver and adds 2 to its quantity: afterwards the catalog has exactly
one record for the key, with quantity 4, and no second record was ever
created. -/
theorem C2_merge_import_accumulates (cat : List InventoryItem) (nid : Nat)
    (r : RowData) (p : ParsedRow) (s1 s2 : ImportState)
    (hp : parseRow r = .ok p) (hq : p.quantity = 2)
    (hfind : find_duplicate_ci cat p.game p.set_code p.set_name p.number_set
      p.language p.condition p.variant = none)
    (hfresh : ∀ it ∈ cat, it.id ≠ nid)
    (hs1 : s1 = runImport "merge" cat nid [r])
    (hs2 : s2 = runImport "merge" s1.cat s1.nextId [r]) :
    s1.cat = cat ++ [itemOfParsed nid p] ∧ s1.created = 1 ∧ s1.updated = 0 ∧ s1.skipped = 0 ∧
    s2.cat = cat ++ [{ itemOfParsed nid p with quantity := 4 }] ∧
    s2.created = 0 ∧ s2.updated = 1 ∧ s2.skipped = 0 ∧
    s2.cat.filter (fun it => itemKey it == pKey p) =
      [{ itemOfParsed nid p with quantity := 4 }] := by
  have hkeq := itemKey_itemOfParsed r p nid hp
  have e1 : runImport "merge" cat nid [r] =
      { cat := cat ++ [itemOfParsed nid p], nextId := nid + 1, created := 1,
        updated := 0, skipped := 0, errors := [] } := by
    unfold runImport
    simp only [processRows]
    unfold processRow
    rw [hp]
    dsimp only
    rw [hfind]
  have hfound : find_duplicate_ci (cat ++ [itemOfParsed nid p]) p.game p.set_code
      p.set_name p.number_set p.language p.condition p.variant =
      some (itemOfParsed nid p) := by
    unfold find_duplicate_ci at hfind ⊢
    rw [List.find?_append, hfind]
    simp only [Option.none_or]
    have hpred : (itemKey (itemOfParsed nid p) ==
        queryKey p.game p.set_code p.set_name p.number_set p.language p.condition p.variant) = true := by
      rw [beq_iff_eq]
      exact hkeq
    simp [List.find?, hpred]
  have e2 : runImport "merge" (cat ++ [itemOfParsed nid p]) (nid + 1) [r] =
      { cat := (cat ++ [itemOfParsed nid p]).map (fun it =>
          if it.id = (itemOfParsed nid p).id then { it with quantity := it.quantity + p.quantity } else it),
        nextId := nid + 1, created := 0, updated := 1, skipped := 0, errors := [] } := by
    unfold runImport
    simp only [processRows]
    unfold processRow
    rw [hp]
    dsimp only
    rw [hfound]
    dsimp only
    rw [if_neg (by decide : ¬("merge" = "skip")), if_pos rfl]
  have hmap : (cat ++ [itemOfParsed nid p]).map (fun it =>
      if it.id = (itemOfParsed nid p).id then { it with quantity := it.quantity + p.quantity } else it) =
      cat ++ [{ itemOfParsed nid p with quantity := 4 }] := by
    rw [List.map_append]
    congr 1
    · refine map_fix_eq_self cat _ (fun a ha => ?_)
      rw [if_neg]
      exact fun hcontra => hfresh a ha hcontra
    · dsimp only [List.map_cons, List.map_nil]
      rw [if_pos rfl]
      simp only [itemOfParsed, hq]
      norm_num
  have hscat1 : s1.cat = cat ++ [itemOfParsed nid p] := by rw [hs1, e1]
  have hsnid1 : s1.nextId = nid + 1 := by rw [hs1, e1]
  have hscat2 : s2.cat = cat ++ [{ itemOfParsed nid p with quantity := 4 }] := by
    rw [hs2, hscat1, hsnid1, e2]
    exact hmap
  refine ⟨hscat1, by rw [hs1, e1], by rw [hs1, e1], by rw [hs1, e1],
    hscat2, by rw [hs2, hscat1, hsnid1, e2], by rw [hs2, hscat1, hsnid1, e2],
    by rw [hs2, hscat1, hsnid1, e2], ?_⟩
  rw [hscat2, List.filter_append]
  have hfilcat : cat.filter (fun it => itemKey it == pKey p) = [] := by
    rw [List.filter_eq_nil_iff]
    intro a ha
    exact List.find?_eq_none.mp hfind a ha
  rw [hfilcat]
  have hpred4 : (itemKey { itemOfParsed nid p with quantity := 4 } == pKey p) = true := by
    rw [beq_iff_eq]
    exact hkeq
  simp [List.filter, hpred4]

/-- C2 witness: the sample quantity-2 row imported twice into an empty
catalog. -/
theorem C2_merge_import_accumulates_witness :
    (runImport "merge" [] 1 [exRow]).cat = [] ++ [itemOfParsed 1 exParsed] ∧
    (runImport "merge" [] 1 [exRow]).created = 1 ∧
    (runImport "merge" [] 1 [exRow]).updated = 0 ∧
    (runImport "merge" [] 1 [exRow]).skipped = 0 ∧
    (runImport "merge" (runImport "merge" [] 1 [exRow]).cat
        (runImport "merge" [] 1 [exRow]).nextId [exRow]).cat =
      [] ++ [{ itemOfParsed 1 exParsed with quantity := 4 }] ∧
    (runImport "merge" (runImport "merge" [] 1 [exRow]).cat
        (runImport "merge" [] 1 [exRow]).nextId [exRow]).created = 0 ∧
    (runImport "merge" (runImport "merge" [] 1 [exRow]).cat
        (runImport "merge" [] 1 [exRow]).nextId [exRow]).updated = 1 ∧
    (runImport "merge" (runImport "merge" [] 1 [exRow]).cat
        (runImport "merge" [] 1 [exRow]).nextId [exRow]).skipped = 0 ∧
    (runImport "merge" (runImport "merge" [] 1 [exRow]).cat
        (runImport "merge" [] 1 [exRow]).nextId [exRow]).cat.filter
        (fun it => itemKey it == pKey exParsed) =
      [{ itemOfParsed 1 exParsed with quantity := 4 }] :=
  C2_merge_import_accumulates [] 1 exRow exParsed
    (runImport "merge" [] 1 [exRow])
    (runImport "merge" (runImport "merge" [] 1 [exRow]).cat
      (runImport "merge" [] 1 [exRow]).nextId [exRow])
    (by decide) (by decide) (by decide) (by intro it hit; simp at hit) rfl rfl

/-- One import-row step keeps every stored quantity non-negative. -/
theorem processRow_qty (dp : String) (st : ImportState) (ln : Nat) (r : RowData)
    (h : QtyInv st.cat) : QtyInv (processRow dp st ln r).cat := by
  unfold processRow
  split
  · exact h
  · exact h
  · exact h
  · exact h
  · rename_i p hp
    have hq := (parseRow_ok_fields r p hp).2.2.2.2.2
    split
    · rename_i ex hex
      split
      · exact h
      · split
        · dsimp only
          intro it hit
          obtain ⟨a, ha, rfl⟩ := List.mem_map.mp hit
          by_cases hid : a.id = ex.id
          · rw [if_pos hid]
            have := h a ha
            show 0 ≤ a.quantity + p.quantity
            omega
          · rw [if_neg hid]
            exact h a ha
        · dsimp only
          intro it hit
          obtain ⟨a, ha, rfl⟩ := List.mem_map.mp hit
          by_cases hid : a.id = ex.id
          · rw [if_pos hid]
            show 0 ≤ p.quantity
            omega
          · rw [if_neg hid]
            exact h a ha
    · dsimp only
      intro it hit
      rcases List.mem_append.mp hit with hin | hin
      · exact h it hin
      · rw [List.mem_singleton] at hin
        subst hin
        show 0 ≤ p.quantity
        omega

/-- The whole import row loop keeps every stored quantity non-negative. -/
theorem processRows_qty (dp : String) (rows : List RowData) :
    ∀ (st : ImportState) (ln : Nat), QtyInv st.cat →
      QtyInv (processRows dp st ln rows).cat := by
  induction rows with
  | nil => intro st ln h; exact h
  | cons r rs ih =>
    intro st ln h
    exact ih (processRow dp st ln r) (ln + 1) (processRow_qty dp st ln r h)

/-- C9: every quantity-touching operation keeps quantities non-negative.
A negative form quantity makes create validation-fail with no catalog
change and makes update never reach the assignment; quantity parsing in
CSV import only yields non-negative values and rejects a negative cell
outright; the per-item merge-add endpoint ignores a negative delta; bulk
adjustment clamps each result at 0, so a negative delta exceeding an
item's quantity leaves it at exactly 0; and create, update, merge-add,
bulk adjust and CSV import each preserve the invariant that all stored
quantities are non-negative. -/
theorem C9_quantity_nonneg_invariant :
    (∀ (cat : List InventoryItem) (nid : Nat) (f : ItemForm), f.quantity < 0 →
      ∃ es, create_item cat nid f = (.validationError es, cat)) ∧
    (∀ (cat : List InventoryItem) (iid : Nat) (f : ItemForm), f.quantity < 0 →
      (update_item cat iid f).2 = cat ∧ (update_item cat iid f).1 ≠ .updated) ∧
    (∀ (q : Option String) (n : Int), parseQuantity q = some n → 0 ≤ n) ∧
    (∀ (s : String) (n : Int), pyInt? s = some n → n < 0 → parseQuantity (some s) = none) ∧
    (∀ (cat : List InventoryItem) (iid : Nat) (d : Int), d < 0 →
      merge_item_quantity cat iid d = cat) ∧
    (∀ (cat : List InventoryItem) (ids : List Nat) (d : Int), ids ≠ [] →
      bulk_adjust_qty cat ids d =
        cat.map (fun it =>
          if it.id ∈ ids then { it with quantity := max 0 (it.quantity + d) } else it)) ∧
    (∀ (cat : List InventoryItem) (ids : List Nat) (d : Int) (it : InventoryItem),
      it ∈ cat → it.id ∈ ids → it.quantity + d < 0 →
      { it with quantity := 0 } ∈ bulk_adjust_qty cat ids d) ∧
    (∀ (cat : List InventoryItem) (nid : Nat) (f : ItemForm), QtyInv cat →
      QtyInv (create_item cat nid f).2) ∧
    (∀ (cat : List InventoryItem) (iid : Nat) (f : ItemForm), QtyInv cat →
      QtyInv (update_item cat iid f).2) ∧
    (∀ (cat : List InventoryItem) (iid : Nat) (d : Int), QtyInv cat →
      QtyInv (merge_item_quantity cat iid d)) ∧
    (∀ (cat : List InventoryItem) (ids : List Nat) (d : Int), QtyInv cat →
      QtyInv (bulk_adjust_qty cat ids d)) ∧
    (∀ (dp : String) (cat : List InventoryItem) (nid : Nat) (rows : List RowData),
      QtyInv cat → QtyInv (runImport dp cat nid rows).cat) := by
  refine ⟨?_, ?_, parseQuantity_nonneg, parseQuantity_neg_none, ?_, ?_, ?_, ?_, ?_, ?_, ?_, ?_⟩
  · intro cat nid f hneg
    unfold create_item
    rw [if_neg (create_errors_ne_nil_of_neg f hneg)]
    exact ⟨create_errors f, rfl⟩
  · intro cat iid f hneg
    unfold update_item
    split
    · exact ⟨rfl, by intro hc; cases hc⟩
    · rw [if_neg (update_errors_ne_nil_of_neg f hneg)]
      exact ⟨rfl, by intro hc; cases hc⟩
  · intro cat iid d hneg
    unfold merge_item_quantity
    rw [if_pos hneg]
  · intro cat ids d hne
    unfold bulk_adjust_qty
    rw [if_neg hne]
  · intro cat ids d it hmem hid hneg
    have hne : ids ≠ [] := List.ne_nil_of_mem hid
    unfold bulk_adjust_qty
    rw [if_neg hne]
    have : { it with quantity := 0 } =
        (fun a => if a.id ∈ ids then { a with quantity := max 0 (a.quantity + d) } else a) it := by
      show { it with quantity := 0 } =
        if it.id ∈ ids then { it with quantity := max 0 (it.quantity + d) } else it
      rw [if_pos hid]
      have hmax : max 0 (it.quantity + d) = 0 := max_eq_left (by omega)
      rw [hmax]
    rw [this]
    exact List.mem_map_of_mem _ hmem
  · intro cat nid f h
    unfold create_item
    split
    · rename_i herr
      split
      · split
        · exact h
        · dsimp only
          have hq := (create_errors_nil_parses f herr).2.2.2.2
          intro it hit
          rcases List.mem_append.mp hit with hin | hin
          · exact h it hin
          · rw [List.mem_singleton] at hin
            subst hin
            show 0 ≤ f.quantity
            omega
      · exact h
    · exact h
  · intro cat iid f h
    unfold update_item
    split
    · exact h
    · split
      · rename_i herr
        have hq := (update_errors_nil_parses f herr).2.2.2.2
        split
        · split
          · split
            · dsimp only
              intro it hit
              obtain ⟨a, ha, rfl⟩ := List.mem_map.mp hit
              by_cases hid : a.id = iid
              · rw [if_pos hid]
                show 0 ≤ f.quantity
                omega
              · rw [if_neg hid]
                exact h a ha
            · exact h
          · dsimp only
            intro it hit
            obtain ⟨a, ha, rfl⟩ := List.mem_map.mp hit
            by_cases hid : a.id = iid
            · rw [if_pos hid]
              show 0 ≤ f.quantity
              omega
            · rw [if_neg hid]
              exact h a ha
        · exact h
      · exact h
  · intro cat iid d h
    unfold merge_item_quantity
    split
    · exact h
    · rename_i hpos
      split
      · exact h
      · intro it hit
        obtain ⟨a, ha, rfl⟩ := List.mem_map.mp hit
        by_cases hid : a.id = iid
        · rw [if_pos hid]
          have := h a ha
          show 0 ≤ a.quantity + d
          omega
        · rw [if_neg hid]
          exact h a ha
  · intro cat ids d h
    unfold bulk_adjust_qty
    split
    · exact h
    · intro it hit
      obtain ⟨a, ha, rfl⟩ := List.mem_map.mp hit
      by_cases hid : a.id ∈ ids
      · rw [if_pos hid]
        show 0 ≤ max 0 (a.quantity + d)
        exact le_max_left _ _
      · rw [if_neg hid]
        exact h a ha
  · intro dp cat nid rows h
    exact processRows_qty dp rows _ 2 h

/-- C9 witness: the negative-quantity create rejection plus a bulk clamp
to zero on the sample catalog. -/
theorem C9_quantity_nonneg_invariant_witness :
    (∃ es, create_item [exItem] 2 negForm = (.validationError es, [exItem])) ∧
    { exItem with quantity := 0 } ∈ bulk_adjust_qty [exItem] [1] (-5) := by
  refine ⟨C9_quantity_nonneg_invariant.1 [exItem] 2 negForm (by decide), ?_⟩
  exact C9_quantity_nonneg_invariant.2.2.2.2.2.2.1 [exItem] [1] (-5) exItem
    (by decide) (by decide) (by decide)

end Inventory
